import Mathlib

/-!
# Verification of the helios3 renderer core

A shallow embedding of the resource-and-pipeline management core of the
helios3 GPU renderer, together with theorems settling the specification
claims about it.

Embedded components and their sources:
* `Shader` — `src/components/shader.ts` (preprocessing, variant keys,
  module caching);
* `PipelineCache` — `src/components/pipelineCache.ts`;
* `MeshRegistry` — `src/components/uniformBuffer.ts`;
* `RenderPass3D` — `src/passes/3DRenderPass.ts` (draw-loop command stream);
* `Material` — the material class (property setters, dirty flag, bind-group
  cache);
* `RenderPassBuilder` — the pass builder (texture declare/read/write);
* `Renderer.appendIndexData` — the earlier renderer iteration's index upload
  with pad-to-even alignment.

GPU objects (buffers, modules, pipelines, bind groups) are modelled as
integer identities handed out by a monotone counter, and device calls are
logged in explicit state records, so that object identity ("the same cached
instance") and call counts ("compiled at most once") are expressible.
JavaScript strings are `String`; the line-level primitives the shader
preprocessor uses (`split`, `trim`, `startsWith`, `substring`) are
implemented over `String.data` so that all definitions evaluate by kernel
reduction.
-/

/-! ## Character-list primitives

JavaScript string helpers used by the source, implemented over `List Char`.
-/

/-- Embeds `code.split("\n")`: split a character sequence at newline characters.
An empty input yields one empty line, and a trailing newline yields a
trailing empty line, exactly as in JavaScript. -/
def splitLines : List Char → List (List Char)
  | [] => [[]]
  | c :: rest =>
    match splitLines rest with
    | [] => []
    | l :: ls => if c = '\n' then [] :: l :: ls else (c :: l) :: ls

/-- Embeds `line.trim()`: remove leading and trailing whitespace characters. -/
def trimChars (l : List Char) : List Char :=
  ((l.dropWhile Char.isWhitespace).reverse.dropWhile Char.isWhitespace).reverse

/-- Embeds `s.startsWith(p)` on character lists. -/
def startsWithChars (p l : List Char) : Bool :=
  List.isPrefixOf p l

/-! ## A concrete total order on strings

The source sorts flag names with `localeCompare`; any fixed total order
yields the same canonicalisation guarantee, so the embedding orders strings
lexicographically by character code. The comparator is a `Bool`-valued
function so that concrete variant keys evaluate by kernel reduction.
-/

/-- Lexicographic less-or-equal on character lists, by character code. -/
def lexLeChars : List Char → List Char → Bool
  | [], _ => true
  | _ :: _, [] => false
  | a :: as, b :: bs =>
    if a < b then true
    else if b < a then false
    else lexLeChars as bs

/-- The string order used to canonicalise flag names. -/
def strLe (a b : String) : Prop := lexLeChars a.data b.data = true

instance : DecidableRel strLe := fun a b => by
  unfold strLe; infer_instance

instance : IsTotal String strLe :=
  ⟨fun a b => by
    unfold strLe
    generalize a.data = la
    generalize b.data = lb
    induction la generalizing lb with
    | nil => left; rfl
    | cons x xs ih =>
      cases lb with
      | nil => right; rfl
      | cons y ys =>
        by_cases hxy : x < y
        · left; simp [lexLeChars, hxy]
        · by_cases hyx : y < x
          · right; simp [lexLeChars, hyx]
          · rcases ih ys with h | h
            · left; simp [lexLeChars, hxy, hyx, h]
            · right; simp [lexLeChars, hxy, hyx, h]⟩

instance : IsTrans String strLe :=
  ⟨fun a b c hab hbc => by
    unfold strLe at hab hbc ⊢
    generalize hga : a.data = la at hab
    generalize hgb : b.data = lb at hab hbc
    generalize hgc : c.data = lc at hbc
    clear hga hgb hgc
    induction la generalizing lb lc with
    | nil => rfl
    | cons x xs ih =>
      cases lb with
      | nil => simp [lexLeChars] at hab
      | cons y ys =>
        cases lc with
        | nil => simp [lexLeChars] at hbc
        | cons z zs =>
          simp only [lexLeChars] at hab hbc ⊢
          by_cases hxy : x < y
          · by_cases hyz : y < z
            · simp [lt_trans hxy hyz]
            · by_cases hzy : z < y
              · simp [hyz, hzy] at hbc
              · have hyz' : y = z := le_antisymm
                  (le_of_not_lt hzy) (le_of_not_lt hyz)
                simp [hyz' ▸ hxy]
          · by_cases hyx : y < x
            · simp [hxy, hyx] at hab
            · have hxy' : x = y := le_antisymm
                (le_of_not_lt hyx) (le_of_not_lt hxy)
              simp only [hxy, hyx, if_false, if_true] at hab
              by_cases hyz : y < z
              · simp [hxy' ▸ hyz]
              · by_cases hzy : z < y
                · simp [hyz, hzy] at hbc
                · simp only [hyz, hzy, if_false, if_true] at hbc
                  simp [hxy' ▸ hyz, hxy' ▸ hzy, ih ys hab zs hbc]⟩

instance : IsAntisymm String strLe :=
  ⟨fun a b hab hba => by
    unfold strLe at hab hba
    cases a with
    | mk la => cases b with
      | mk lb =>
        refine congrArg String.mk ?_
        simp only at hab hba
        induction la generalizing lb with
        | nil =>
          cases lb with
          | nil => rfl
          | cons y ys => simp [lexLeChars] at hba
        | cons x xs ih =>
          cases lb with
          | nil => simp [lexLeChars] at hab
          | cons y ys =>
            simp only [lexLeChars] at hab hba
            by_cases hxy : x < y
            · simp [hxy, lt_asymm hxy] at hba
            · by_cases hyx : y < x
              · simp [hxy, hyx] at hab
              · have hc : x = y := le_antisymm
                  (le_of_not_lt hyx) (le_of_not_lt hxy)
                simp only [hxy, hyx, if_false, if_true] at hab hba
                rw [hc, ih ys hab hba]⟩

/-- Embeds `strings.join(sep)`: concatenate with a separator; empty list gives `""`. -/
def joinSep (sep : String) : List String → String
  | [] => ""
  | [s] => s
  | s :: rest => s ++ sep ++ joinSep sep rest

/-- Join lines with newline characters, as `output.join("\n")` does. -/
def joinLinesNL : List (List Char) → List Char
  | [] => []
  | [l] => l
  | l :: rest => l ++ '\n' :: joinLinesNL rest

/-! ## Shader (`src/components/shader.ts`)

`Shader` wraps WGSL source text, resolves `#ifdef` / `#ifndef` / `#else` /
`#endif` directives against a flag map, and caches compiled modules by
variant key.
-/

/-- Embeds `ShaderVariantFlags = Record<string, boolean>`: a JavaScript object
mapping flag names to booleans, modelled as an association list whose keys
are unique (JavaScript object keys are). -/
abbrev ShaderVariantFlags := List (String × Bool)

/-- Embeds the lookup `!!flags[name]`: look a flag up; a missing key reads as `undefined`,
which coerces to `false`. -/
def lookupFlag (flags : ShaderVariantFlags) (name : List Char) : Bool :=
  match flags.find? (fun kv => decide (kv.1.data = name)) with
  | some kv => kv.2
  | none => false

/-- The names of the flags whose value is `true`, in object order
(`Object.entries(flags).filter(([_, v]) => v)` projected to keys). -/
def trueFlagNames (flags : ShaderVariantFlags) : List String :=
  (flags.filter (fun kv => kv.2)).map Prod.fst

/-- Embeds `Shader.getVariantKey(flags)`: filter the flags to the true-valued ones,
sort the names, join with `"|"`, and fall back to the `"__default__"`
sentinel when the joined string is empty. (The source sorts the entries
before projecting to keys; since object keys are unique the result is the
sorted key list either way.) -/
def getVariantKey (flags : ShaderVariantFlags) : String :=
  let joined := joinSep "|" (List.insertionSort strLe (trueFlagNames flags))
  if joined = "" then "__default__" else joined

/-- The three failure modes of `Shader.preprocess`, thrown as `Error`s in
the source. -/
inductive PreprocessError where
  | unmatchedElse
  | unmatchedEndif
  | unclosedConditional
deriving DecidableEq

/-- The loop body of `Shader.preprocess`: walk the lines carrying the
conditional-inclusion stack (top of stack at the head of the list — the
source pushes/pops at the end of a JavaScript array). Directives are
recognised on the trimmed line exactly as in the source: a `startsWith`
test for `#ifdef ` / `#ifndef ` (note the trailing space) and an equality
test for `#else` / `#endif`; any other line is emitted when every stack
entry is true. -/
def processLines (flags : ShaderVariantFlags) :
    List (List Char) → List Bool → Except PreprocessError (List (List Char))
  | [], stack => if stack.isEmpty then .ok [] else .error .unclosedConditional
  | line :: rest, stack =>
    let trimmed := trimChars line
    if startsWithChars "#ifdef ".data trimmed then
      processLines flags rest (lookupFlag flags (trimChars (trimmed.drop 7)) :: stack)
    else if startsWithChars "#ifndef ".data trimmed then
      processLines flags rest ((!lookupFlag flags (trimChars (trimmed.drop 8))) :: stack)
    else if trimmed = "#else".data then
      match stack with
      | [] => .error .unmatchedElse
      | top :: below => processLines flags rest ((!top) :: below)
    else if trimmed = "#endif".data then
      match stack with
      | [] => .error .unmatchedEndif
      | _ :: below => processLines flags rest below
    else if stack.all (fun v => v) then
      (processLines flags rest stack).map (line :: ·)
    else
      processLines flags rest stack

/-- Embeds `Shader.preprocess(flags)`: split the source into lines, scan them with
an initially empty stack, and join the surviving lines with newlines. -/
def preprocess (code : String) (flags : ShaderVariantFlags) :
    Except PreprocessError String :=
  (processLines flags (splitLines code.data) []).map
    (fun out => String.mk (joinLinesNL out))

/-! ### Claim-side description of the preprocessor (for C6)

The claim describes the scanner as: classify each line as one of five
directive kinds, then run a boolean-stack machine over the classified
lines. This is written independently of `processLines` and proved equal
to it. -/

/-- The directive kinds the claim distinguishes. -/
inductive Directive where
  | ifdefD (name : List Char)
  | ifndefD (name : List Char)
  | elseD
  | endifD
  | contentD
deriving DecidableEq

/-- Classify one line the way the claim reads it: `#ifdef NAME`,
`#ifndef NAME`, `#else`, `#endif` (recognised on the trimmed line), or
plain content. -/
def classifyLine (line : List Char) : Directive :=
  let trimmed := trimChars line
  if startsWithChars "#ifdef ".data trimmed then
    .ifdefD (trimChars (trimmed.drop 7))
  else if startsWithChars "#ifndef ".data trimmed then
    .ifndefD (trimChars (trimmed.drop 8))
  else if trimmed = "#else".data then .elseD
  else if trimmed = "#endif".data then .endifD
  else .contentD

/-- The claim's stack machine: `#ifdef` pushes the flag's truth, `#ifndef`
pushes its negation, `#else` negates the top (failing on an empty stack),
`#endif` pops (failing on an empty stack), a content line is kept iff every
stack entry is true, and a non-empty stack at end of input is an error. -/
def scanSpec (flags : ShaderVariantFlags) :
    List (List Char) → List Bool → Except PreprocessError (List (List Char))
  | [], [] => .ok []
  | [], _ :: _ => .error .unclosedConditional
  | line :: rest, stack =>
    match classifyLine line, stack with
    | .ifdefD name, _ => scanSpec flags rest (lookupFlag flags name :: stack)
    | .ifndefD name, _ => scanSpec flags rest ((!lookupFlag flags name) :: stack)
    | .elseD, [] => .error .unmatchedElse
    | .elseD, top :: below => scanSpec flags rest ((!top) :: below)
    | .endifD, [] => .error .unmatchedEndif
    | .endifD, _ :: below => scanSpec flags rest below
    | .contentD, _ =>
      if stack.all (fun v => v) then (scanSpec flags rest stack).map (line :: ·)
      else scanSpec flags rest stack

/-! ### Module cache (`Shader.getModule`)

Compiled `GPUShaderModule`s are modelled as identities handed out by a
monotone counter. `compileLog` records, in order, the variant key of every
compilation (`preprocess` + `device.createShaderModule`) the instance has
performed. -/

/-- Embeds `Map.get` on a JavaScript `Map` with string keys, modelled as an
association list in insertion order. -/
def cacheLookup (cache : List (String × Nat)) (k : String) : Option Nat :=
  match cache.find? (fun kv => decide (kv.1 = k)) with
  | some kv => some kv.2
  | none => none

/-- The mutable state of one `Shader` instance: its source text and the
variant-keyed module cache, plus the instrumentation that makes module
identity and compile counts observable. -/
structure ShaderState where
  code : String
  moduleCache : List (String × Nat)
  nextModuleId : Nat
  compileLog : List String
deriving DecidableEq

/-- Embeds `new Shader(code)`: empty module cache. -/
def newShader (code : String) : ShaderState :=
  { code := code, moduleCache := [], nextModuleId := 0, compileLog := [] }

/-- Embeds `Shader.getModule(device, flags)`: return the cached module for the
variant key if present; otherwise preprocess (a thrown preprocessor error
propagates before the cache is touched), compile a fresh module, and cache
it under the key. -/
def getModule (st : ShaderState) (flags : ShaderVariantFlags) :
    Except PreprocessError Nat × ShaderState :=
  match cacheLookup st.moduleCache (getVariantKey flags) with
  | some m => (.ok m, st)
  | none =>
    match preprocess st.code flags with
    | .error e => (.error e, st)
    | .ok _processed =>
      (.ok st.nextModuleId,
        { st with
          moduleCache := st.moduleCache ++ [(getVariantKey flags, st.nextModuleId)],
          nextModuleId := st.nextModuleId + 1,
          compileLog := st.compileLog ++ [getVariantKey flags] })

/-- A sequence of `getModule` calls on one `Shader` instance (results
discarded; a failing call leaves the state unchanged). -/
def runGetModules (st : ShaderState) (calls : List ShaderVariantFlags) :
    ShaderState :=
  calls.foldl (fun s flags => (getModule s flags).2) st

/-- Invariant carried through a call sequence: the compile log has no
repeated keys and every logged key is present in the cache. -/
def ShaderCacheInv (st : ShaderState) : Prop :=
  st.compileLog.Nodup
  ∧ ∀ k ∈ st.compileLog, (cacheLookup st.moduleCache k).isSome

/-! ## Pipeline cache (`src/components/pipelineCache.ts`)

Pipelines are deduplicated by a composite string key. Compiled
`GPURenderPipeline`s are modelled as identities from a monotone counter and
every `device.createRenderPipeline` call is logged. The `shader` field of a
descriptor is an object reference, modelled as an index into a heap of
`ShaderState`s carried in the cache state (the `getModule` call inside
`getOrCreate` mutates the referenced shader). -/

/-- Embeds `PipelineDescriptor` from the source, field for field. Optional fields
are `Option` (`undefined` is `none`); format/compare/cull/topology/blend
values are their WebGPU string names. -/
structure PipelineDescriptor where
  shader : Nat
  shaderFlags : ShaderVariantFlags
  vertexLayout : String
  format : String
  depthFormat : Option String
  depthWriteEnabled : Option Bool
  depthCompare : Option String
  cullMode : Option String
  topology : Option String
  blendMode : Option String
  pipelineLayout : Nat
deriving DecidableEq

/-- Template-literal stringification of a boolean. -/
def boolStr : Bool → String
  | true => "true"
  | false => "false"

/-- Embeds `PipelineCache.buildKey`: the nine `??`-defaulted key parts joined with
`"|"`. Note it identifies the shader only through the variant key of the
descriptor's flags, never through the shader object itself. -/
def buildKey (desc : PipelineDescriptor) : String :=
  joinSep "|" [
    "shader:" ++ getVariantKey desc.shaderFlags,
    "vtx:" ++ desc.vertexLayout,
    "fmt:" ++ desc.format,
    "depth:" ++ desc.depthFormat.getD "none",
    "dw:" ++ boolStr (desc.depthWriteEnabled.getD true),
    "dc:" ++ desc.depthCompare.getD "less",
    "cull:" ++ desc.cullMode.getD "none",
    "topo:" ++ desc.topology.getD "triangle-list",
    "blend:" ++ desc.blendMode.getD "opaque"]

/-- Embeds `VERTEX_LAYOUTS`: the three registered layouts, modelled by the list of
per-buffer array strides in bytes; unknown names give `none`. -/
def VERTEX_LAYOUTS (name : String) : Option (List Nat) :=
  if name = "position" then some [12]
  else if name = "position_normal" then some [12, 12]
  else if name = "position_normal_uv" then some [12, 12, 8]
  else none

/-- Shader-object heap access (a JavaScript object reference dereference). -/
def heapLookup (hs : List (Nat × ShaderState)) (i : Nat) : Option ShaderState :=
  match hs.find? (fun kv => decide (kv.1 = i)) with
  | some kv => some kv.2
  | none => none

/-- Replace the shader stored under reference `i`. -/
def heapUpdate (hs : List (Nat × ShaderState)) (i : Nat) (s : ShaderState) :
    List (Nat × ShaderState) :=
  hs.map (fun kv => if kv.1 = i then (i, s) else kv)

/-- The mutable state of one `PipelineCache` plus the shader heap it calls
into. `pipelineCompileLog` records the key of every
`device.createRenderPipeline` invocation. -/
structure PipelineCacheState where
  cache : List (String × Nat)
  shaders : List (Nat × ShaderState)
  nextPipelineId : Nat
  pipelineCompileLog : List String
deriving DecidableEq

/-- Embeds `PipelineCache.getOrCreate(desc)`: return the cached pipeline for the
built key if present; otherwise resolve the vertex layout (unknown names
throw), obtain the shader module (preprocessor errors propagate), build the
pipeline descriptor (blend state only for `"alpha"`, depth-stencil only
when a depth format is supplied — neither affects the cache bookkeeping
modelled here), compile, and cache under the key. -/
def getOrCreate (st : PipelineCacheState) (desc : PipelineDescriptor) :
    Except String (Nat × PipelineCacheState) :=
  match cacheLookup st.cache (buildKey desc) with
  | some p => .ok (p, st)
  | none =>
    match VERTEX_LAYOUTS desc.vertexLayout with
    | none => .error ("Unknown vertex layout: " ++ desc.vertexLayout)
    | some _layout =>
      match heapLookup st.shaders desc.shader with
      | none => .error "TypeError: shader reference is undefined"
      | some sst =>
        match getModule sst desc.shaderFlags with
        | (.error _e, _) => .error "Shader preprocessor error"
        | (.ok _m, sst1) =>
          .ok (st.nextPipelineId,
            { cache := st.cache ++ [(buildKey desc, st.nextPipelineId)],
              shaders := heapUpdate st.shaders desc.shader sst1,
              nextPipelineId := st.nextPipelineId + 1,
              pipelineCompileLog := st.pipelineCompileLog ++ [buildKey desc] })

/-- Embeds `PipelineCache.clear()`. -/
def pipelineCacheClear (st : PipelineCacheState) : PipelineCacheState :=
  { st with cache := [] }

/-- Embeds `PipelineCache.size`. -/
def pipelineCacheSize (st : PipelineCacheState) : Nat :=
  st.cache.length

/-! ## Mesh registry (`src/components/uniformBuffer.ts`, `MeshRegistry`)

The catalog is a `Uint32Array(1024)` of words plus append cursors for the
four attribute buffers. Uploads via `queue.writeBuffer` to the index buffer
are logged as `(offset, elements)` pairs so the claim about index padding is
observable. Element stores to the word array wrap modulo `2 ^ 32` and
out-of-range stores are dropped, as for a JavaScript typed array. -/

/-- The result of reading one element of a `Uint32Array`: a number, or
`undefined` for an out-of-range index. -/
inductive JsWord where
  | num (n : Nat)
  | undefWord
deriving DecidableEq

/-- Embeds `words[i]` on a `Uint32Array`, for any integer index. -/
def u32get (words : List Nat) (i : Int) : JsWord :=
  if 0 ≤ i ∧ i < words.length then .num (words.getD i.toNat 0) else .undefWord

/-- Numeric coercion applied by the `&` operator: `undefined` becomes 0. -/
def jsToNat : JsWord → Nat
  | .num n => n
  | .undefWord => 0

/-- Embeds `words.set(vals, off)`: store a list of values element by element. -/
def u32setList : List Nat → Nat → List Nat → List Nat
  | words, _, [] => words
  | words, off, v :: vs => u32setList (words.set off (v % 2 ^ 32)) (off + 1) vs

/-- The mutable state of `MeshRegistry`. -/
structure MeshRegistryState where
  registryWords : List Nat
  meshRegistryCursor : Nat
  vertexCursor : Nat
  indexCursor : Nat
  normalCursor : Nat
  uv0Cursor : Nat
  indexWrites : List (Nat × List Nat)
deriving DecidableEq

/-- A fresh `MeshRegistry`: 1024 zeroed words, all cursors at 0. -/
def initMeshRegistry : MeshRegistryState :=
  { registryWords := List.replicate 1024 0, meshRegistryCursor := 0,
    vertexCursor := 0, indexCursor := 0, normalCursor := 0, uv0Cursor := 0,
    indexWrites := [] }

/-- One `registerMesh` call's arguments. Vertex, normal and uv data enter
the bookkeeping only through their byte lengths; index data is kept as its
`Uint16Array` element list because the upload itself is under test. -/
structure MeshInput where
  vertexByteLength : Nat
  indexData : List Nat
  normalByteLength : Option Nat
  uv0ByteLength : Option Nat
deriving DecidableEq

/-- Embeds `MeshRegistry.registerMesh(vertexData, indexData, normalData?, uv0Data?)`,
step for step from the source: compute the attribute mask, store it at the
cursor and advance by one, upload each attribute at its buffer cursor and
advance the cursors, then store the entry words
`[mask, vertexOffset, vertexLength, indexOffset, indexLength, …]` at the
(already advanced) cursor and advance it past them. The index upload writes
the element list as is — there is no padding step here. Returns the handle
(the cursor value before the first store) and the new state. -/
def registerMesh (st : MeshRegistryState) (inp : MeshInput) :
    Nat × MeshRegistryState :=
  let registryMask :=
    3 + (if inp.normalByteLength.isSome then 4 else 0)
      + (if inp.uv0ByteLength.isSome then 8 else 0)
  let meshId := st.meshRegistryCursor
  let words1 := st.registryWords.set meshId (registryMask % 2 ^ 32)
  let cursor1 := meshId + 1
  let indexByteLength := 2 * inp.indexData.length
  let meshData :=
    [registryMask, st.vertexCursor, inp.vertexByteLength,
      st.indexCursor, indexByteLength]
    ++ (match inp.normalByteLength with
        | some nb => [st.normalCursor, nb]
        | none => [])
    ++ (match inp.uv0ByteLength with
        | some ub => [st.uv0Cursor, ub]
        | none => [])
  (meshId,
    { registryWords := u32setList words1 cursor1 meshData,
      meshRegistryCursor := cursor1 + meshData.length,
      vertexCursor := st.vertexCursor + inp.vertexByteLength,
      indexCursor := st.indexCursor + indexByteLength,
      normalCursor := st.normalCursor + inp.normalByteLength.getD 0,
      uv0Cursor := st.uv0Cursor + inp.uv0ByteLength.getD 0,
      indexWrites := st.indexWrites ++ [(st.indexCursor, inp.indexData)] })

/-- The record `getMeshData` returns. `Option` marks the fields the source
sets to `null` when the mask bit for the attribute is clear. -/
structure MeshData where
  vertexOffset : JsWord
  vertexSize : JsWord
  indexOffset : JsWord
  indexSize : JsWord
  normalOffset : Option JsWord
  normalSize : Option JsWord
  uv0Offset : Option JsWord
  uv0Size : Option JsWord
deriving DecidableEq

/-- Embeds `MeshRegistry.getMeshData(meshId)`: read the mask at `meshId`, decode
the normal/uv presence bits, and read the eight span words at
`meshId + 1 … meshId + 8`, with `null` for the spans of absent attributes.
Total for every integer handle: reads outside the array yield `undefined`,
never a failure. -/
def getMeshData (st : MeshRegistryState) (meshId : Int) : MeshData :=
  let registryMask := jsToNat (u32get st.registryWords meshId)
  let hasNormal := registryMask &&& 4 ≠ 0
  let hasUV0 := registryMask &&& 8 ≠ 0
  { vertexOffset := u32get st.registryWords (meshId + 1),
    vertexSize := u32get st.registryWords (meshId + 2),
    indexOffset := u32get st.registryWords (meshId + 3),
    indexSize := u32get st.registryWords (meshId + 4),
    normalOffset := if hasNormal then some (u32get st.registryWords (meshId + 5)) else none,
    normalSize := if hasNormal then some (u32get st.registryWords (meshId + 6)) else none,
    uv0Offset := if hasUV0 then some (u32get st.registryWords (meshId + 7)) else none,
    uv0Size := if hasUV0 then some (u32get st.registryWords (meshId + 8)) else none }

/-- A JavaScript value as seen by a truthiness test: `getMeshData`'s body is
a single `return` of an object literal, so its result is always an object. -/
inductive JsValue where
  | obj (d : MeshData)
  | undefinedVal
  | nullVal
deriving DecidableEq

/-- JavaScript falsiness for the three value shapes above: only objects are
truthy. -/
def jsFalsy : JsValue → Bool
  | .obj _ => false
  | .undefinedVal => true
  | .nullVal => true

/-- Embeds `getMeshData` as a JavaScript value producer (for the `!mesh` check in
the render pass): the source returns the object literal unconditionally. -/
def getMeshDataJS (st : MeshRegistryState) (meshId : Int) : JsValue :=
  .obj (getMeshData st meshId)

/-! ## `Renderer.appendIndexData` (earlier renderer iteration)

The previous upload path pads an odd-length `Uint16Array` with one zero
element before `queue.writeBuffer`, to keep the write 4-byte aligned. -/

/-- What one `appendIndexData` call does: the element list actually written,
the returned `addr`/`byteLength`, and the advanced cursor. -/
structure IndexAppendResult where
  written : List Nat
  addr : Nat
  byteLength : Nat
  newCursor : Nat
deriving DecidableEq

/-- Embeds `Renderer.appendIndexData(data)` from the source: pad odd element counts
with one trailing zero, write at the cursor, advance by the written byte
length, and return the span. -/
def appendIndexData (cursor : Nat) (data : List Nat) : IndexAppendResult :=
  let padded := if data.length % 2 == 1 then data ++ [0] else data
  let byteLength := 2 * padded.length
  { written := padded, addr := cursor, byteLength := byteLength,
    newCursor := cursor + byteLength }

/-! ## Forward render pass (`src/passes/3DRenderPass.ts`)

The claims concern the sorted draw loop of `RenderPass3D.execute`
(the block from the sort through the per-object draws). The commands the
loop records on the pass encoder are reified as a list: pipeline and
material bind group selections are identified by the material handle that
produced them (the manager returns one pipeline / bind group per material),
and the per-object bind group by the object index. -/

/-- A scene entry as the loop reads it: `RenderObject.meshHandle` and
`RenderObject.materialHandle`. -/
structure RenderObject where
  meshHandle : Int
  materialHandle : Int
deriving DecidableEq, Inhabited

/-- One recorded encoder call inside the loop. -/
inductive RenderCmd where
  | setPipeline (material : Int)
  | setMaterialBindGroup (material : Int)
  | setModelBindGroup (objIndex : Nat)
  | drawIndexed (indexCount : JsWord) (instanceCount firstIndex baseVertex firstInstance : Nat)
deriving DecidableEq

/-- The materialHandle of the object at index `i`. -/
def keyOf (scene : List RenderObject) (i : Nat) : Int :=
  (scene.getD i default).materialHandle

/-- The order in which a stable sort by `materialHandle` visits two object
indices: strictly smaller key first, and original index order on equal
keys. -/
def drawBefore (scene : List RenderObject) (a b : Nat) : Prop :=
  keyOf scene a < keyOf scene b ∨ (keyOf scene a = keyOf scene b ∧ a ≤ b)

instance (scene : List RenderObject) : DecidableRel (drawBefore scene) :=
  fun a b => by unfold drawBefore; infer_instance

/-- Embeds `scene.map((_, i) => i).sort((a, b) => handleA - handleB)`: JavaScript's
sort is stable, and a stable sort of the distinct indices `0 … n − 1` by
key is exactly the sort under `drawBefore`. -/
def sortedIndices (scene : List RenderObject) : List Nat :=
  List.insertionSort (drawBefore scene) (List.range scene.length)

/-- The loop body over an index order, carrying `currentMaterial`
(initially −1): rebind pipeline and material bind group only when the
object's material differs from `currentMaterial` (updating it inside that
branch), always rebind the per-object bind group, then look the mesh up,
skip the object if the lookup result is falsy, and otherwise issue
`drawIndexed(mesh.indexOffset, 1, 0, 0, 0)`. -/
def drawLoop (scene : List RenderObject) (st : MeshRegistryState) :
    List Nat → Int → List RenderCmd
  | [], _ => []
  | i :: rest, currentMaterial =>
    let obj := scene.getD i default
    (if obj.materialHandle ≠ currentMaterial then
      [RenderCmd.setPipeline obj.materialHandle,
       RenderCmd.setMaterialBindGroup obj.materialHandle]
    else [])
    ++ [RenderCmd.setModelBindGroup i]
    ++ (if jsFalsy (getMeshDataJS st obj.meshHandle) then []
        else [RenderCmd.drawIndexed (getMeshData st obj.meshHandle).indexOffset 1 0 0 0])
    ++ drawLoop scene st rest
        (if obj.materialHandle ≠ currentMaterial then obj.materialHandle
         else currentMaterial)

/-- The sorted draw loop of `RenderPass3D.execute` (the commands recorded
after the shared buffers and the global bind group are bound). -/
def executeDrawCommands (scene : List RenderObject) (st : MeshRegistryState) :
    List RenderCmd :=
  drawLoop scene st (sortedIndices scene) (-1)

/-- Claim-side form of the loop: pair every position of the draw order with
the key of the previous position (−1 before the first), and emit, for each
pair, the rebinding commands exactly when the keys differ, the per-object
bind group, and one indexed draw. -/
def specCommands (scene : List RenderObject) (st : MeshRegistryState) :
    List RenderCmd :=
  let ord := sortedIndices scene
  ((ord.zip ((-1 : Int) :: ord.map (keyOf scene))).map
    (fun p =>
      (if keyOf scene p.1 ≠ p.2 then
        [RenderCmd.setPipeline (keyOf scene p.1),
         RenderCmd.setMaterialBindGroup (keyOf scene p.1)]
      else [])
      ++ [RenderCmd.setModelBindGroup p.1,
          RenderCmd.drawIndexed
            (getMeshData st (scene.getD p.1 default).meshHandle).indexOffset
            1 0 0 0])).flatten

/-- Draw commands recognised for counting. -/
def isDrawCmd : RenderCmd → Bool
  | .setPipeline _ => false
  | .setMaterialBindGroup _ => false
  | .setModelBindGroup _ => false
  | .drawIndexed _ _ _ _ _ => true

/-! ## Material

The material class: a property bag bound to one shader, owning a lazily
created uniform buffer and a cached bind group, with a dirty flag driving
re-upload. Numeric properties are modelled as rationals (the source only
stores and copies them; no arithmetic is performed). Device activity is
logged in a `MaterialDevice` record: fresh resource identities from a
counter, plus counts of `createBuffer`, `queue.writeBuffer`, and
`createBindGroup` calls. -/

/-- Counters standing in for the `GPUDevice` as the material uses it. -/
structure MaterialDevice where
  nextId : Nat
  buffersCreated : Nat
  bufferWrites : Nat
  bindGroupsCreated : Nat
deriving DecidableEq

/-- The state of one material object. -/
structure MaterialState where
  shaderIndex : Nat
  albedo : List ℚ
  roughness : ℚ
  metallic : ℚ
  emissive : List ℚ
  flags : ShaderVariantFlags
  uniformBuffer : Option Nat
  bindGroup : Option Nat
  dirty : Bool
deriving DecidableEq

/-- Embeds `MaterialDescriptor` with its optional fields. -/
structure MaterialDescriptor where
  shaderIndex : Nat
  albedo : Option (List ℚ)
  roughness : Option ℚ
  metallic : Option ℚ
  emissive : Option (List ℚ)
  flags : Option ShaderVariantFlags
deriving DecidableEq

/-- Embeds `new Material(descriptor)`: defaults
`albedo = [1,1,1,1]`, `roughness = 0.5`, `metallic = 0`,
`emissive = [0,0,0]`, `flags = ` empty; no GPU resources yet; dirty. -/
def newMaterial (d : MaterialDescriptor) : MaterialState :=
  { shaderIndex := d.shaderIndex,
    albedo := d.albedo.getD [1, 1, 1, 1],
    roughness := d.roughness.getD (1 / 2),
    metallic := d.metallic.getD 0,
    emissive := d.emissive.getD [0, 0, 0],
    flags := d.flags.getD [],
    uniformBuffer := none,
    bindGroup := none,
    dirty := true }

/-- Embeds `Material.invalidateBindGroup()`. -/
def invalidateBindGroup (m : MaterialState) : MaterialState :=
  { m with bindGroup := none }

/-- Embeds `Material.setAlbedo(r, g, b, a)`. -/
def setAlbedo (m : MaterialState) (r g b a : ℚ) : MaterialState :=
  invalidateBindGroup { m with albedo := [r, g, b, a], dirty := true }

/-- Embeds `Material.setRoughness(value)`. -/
def setRoughness (m : MaterialState) (value : ℚ) : MaterialState :=
  invalidateBindGroup { m with roughness := value, dirty := true }

/-- Embeds `Material.setMetallic(value)`. -/
def setMetallic (m : MaterialState) (value : ℚ) : MaterialState :=
  invalidateBindGroup { m with metallic := value, dirty := true }

/-- Embeds `Material.setEmissive(r, g, b)`. -/
def setEmissive (m : MaterialState) (r g b : ℚ) : MaterialState :=
  invalidateBindGroup { m with emissive := [r, g, b], dirty := true }

/-- The 12-float packing `uploadUniforms` writes: albedo, emissive with a
zero pad, then roughness/metallic/0/0. -/
def packUniforms (m : MaterialState) : List ℚ :=
  [m.albedo.getD 0 0, m.albedo.getD 1 0, m.albedo.getD 2 0, m.albedo.getD 3 0,
   m.emissive.getD 0 0, m.emissive.getD 1 0, m.emissive.getD 2 0, 0,
   m.roughness, m.metallic, 0, 0]

/-- Embeds `Material.uploadUniforms(device)`: create the 48-byte uniform buffer on
first call; when dirty, write the packed data and clear the flag. -/
def uploadUniforms (m : MaterialState) (dev : MaterialDevice) :
    MaterialState × MaterialDevice :=
  let (m1, dev1) :=
    match m.uniformBuffer with
    | some _ => (m, dev)
    | none =>
      ({ m with uniformBuffer := some dev.nextId },
       { dev with nextId := dev.nextId + 1,
                  buffersCreated := dev.buffersCreated + 1 })
  if m1.dirty then
    ({ m1 with dirty := false },
     { dev1 with bufferWrites := dev1.bufferWrites + 1 })
  else (m1, dev1)

/-- Embeds `Material.getBindGroup(device, layout)`: upload first (so the data is
never stale), then return the cached bind group, creating it if absent. -/
def getBindGroup (m : MaterialState) (dev : MaterialDevice) :
    Nat × MaterialState × MaterialDevice :=
  let (m1, dev1) := uploadUniforms m dev
  match m1.bindGroup with
  | some g => (g, m1, dev1)
  | none =>
    (dev1.nextId,
     { m1 with bindGroup := some dev1.nextId },
     { dev1 with nextId := dev1.nextId + 1,
                 bindGroupsCreated := dev1.bindGroupsCreated + 1 })

/-- Embeds `Material.getPipelineKey()`: shader index plus the sorted true flags;
scalar property values do not appear in the key. -/
def getPipelineKey (m : MaterialState) : String :=
  let flagPart := joinSep "|" (List.insertionSort strLe (trueFlagNames m.flags))
  "shader:" ++ toString m.shaderIndex ++ "|flags:"
    ++ (if flagPart = "" then "none" else flagPart)

/-- The four property setters, as one operation type so "every setter" is
quantifiable. -/
inductive SetterOp where
  | opAlbedo (r g b a : ℚ)
  | opRoughness (value : ℚ)
  | opMetallic (value : ℚ)
  | opEmissive (r g b : ℚ)
deriving DecidableEq

/-- Apply a setter. -/
def applySetter (op : SetterOp) (m : MaterialState) : MaterialState :=
  match op with
  | .opAlbedo r g b a => setAlbedo m r g b a
  | .opRoughness v => setRoughness m v
  | .opMetallic v => setMetallic m v
  | .opEmissive r g b => setEmissive m r g b

/-- Every operation of the material class (for the invariant claim). -/
inductive MaterialOp where
  | set (op : SetterOp)
  | upload
  | getGroup
  | invalidate
deriving DecidableEq

/-- Apply any material operation, threading the device. -/
def applyMaterialOp (op : MaterialOp) (m : MaterialState)
    (dev : MaterialDevice) : MaterialState × MaterialDevice :=
  match op with
  | .set s => (applySetter s m, dev)
  | .upload => uploadUniforms m dev
  | .getGroup => ((getBindGroup m dev).2.1, (getBindGroup m dev).2.2)
  | .invalidate => (invalidateBindGroup m, dev)

/-- The claimed invariant: a cached bind group exists only when the
material is not dirty. -/
def MaterialInv (m : MaterialState) : Prop :=
  m.bindGroup.isSome → m.dirty = false

instance (m : MaterialState) : Decidable (MaterialInv m) := by
  unfold MaterialInv; infer_instance

/-! ## Render pass builder (`RenderGraph` / `RenderPassBuilder`)

Texture declarations and usage records. A `GPUTextureDescriptor` is opaque
to the builder, modelled as a `Nat` payload; the `Map`s are association
lists in insertion order with `Map.set` replace-or-append semantics. -/

/-- Replace the value under a key in place, or append the pair at the end
(JavaScript `Map.set`: an existing key keeps its position). -/
def mapSet {α β : Type} [DecidableEq α] : List (α × β) → α → β → List (α × β)
  | [], k, v => [(k, v)]
  | kv :: rest, k, v =>
    if kv.1 = k then (k, v) :: rest else kv :: mapSet rest k v

/-- Embeds `Map.get` (returning `undefined` as `none`). -/
def mapGet {α β : Type} [DecidableEq α] (m : List (α × β)) (k : α) :
    Option β :=
  match m.find? (fun kv => decide (kv.1 = k)) with
  | some kv => some kv.2
  | none => none

/-- One declared texture: its creation parameters and per-pass usage
records. Usage keys are the builder's `passName` at record time, which may
be `undefined` when no `pass()` scope was opened. -/
structure TextureEntry where
  param : Nat
  usage : List (Option String × List String)
deriving DecidableEq

/-- The builder's state: current pass scope and declared textures. -/
structure BuilderState where
  passName : Option String
  textures : List (String × TextureEntry)
deriving DecidableEq

/-- A fresh `RenderPassBuilder`. -/
def newBuilder : BuilderState :=
  { passName := none, textures := [] }

/-- Embeds `builder.pass(name)`. -/
def builderPass (b : BuilderState) (name : String) : BuilderState :=
  { b with passName := some name }

/-- Embeds `RenderPassBuilder.declareTexture(name, params)`: store the entry under
`name` with a fresh usage record — with no check whether `name` was already
declared, so an existing entry is overwritten. The source cannot throw
here, which the total return type reflects. -/
def declareTexture (b : BuilderState) (name : String) (params : Nat) :
    BuilderState :=
  { b with
    textures := mapSet b.textures name
      { param := params, usage := [(b.passName, ["declare"])] } }

/-- Embeds `RenderPassBuilder.writeTexture(name)`: fail when `name` is not
declared; otherwise append `"write"` to the usage list of the current pass
scope. -/
def writeTexture (b : BuilderState) (name : String) :
    Except String BuilderState :=
  match mapGet b.textures name with
  | none => .error ("Texture " ++ name ++ " is not declared.")
  | some t =>
    let usage := (mapGet t.usage b.passName).getD []
    .ok { b with
      textures := mapSet b.textures name
        { t with usage := mapSet t.usage b.passName (usage ++ ["write"]) } }

/-- Embeds `RenderPassBuilder.readTexture(name)`: fail when `name` is not
declared; otherwise append `"read"` to the usage list of the current pass
scope. -/
def readTexture (b : BuilderState) (name : String) :
    Except String BuilderState :=
  match mapGet b.textures name with
  | none => .error ("Texture " ++ name ++ " is not declared.")
  | some t =>
    let usage := (mapGet t.usage b.passName).getD []
    .ok { b with
      textures := mapSet b.textures name
        { t with usage := mapSet t.usage b.passName (usage ++ ["read"]) } }

/-! ## Concrete states used by the witnesses and counterexamples -/

instance {e a : Type} [DecidableEq e] [DecidableEq a] : DecidableEq (Except e a) := fun x y =>
  match x, y with
  | .ok u, .ok v => if h : u = v then .isTrue (by rw [h]) else .isFalse (by simp [h])
  | .error u, .error v => if h : u = v then .isTrue (by rw [h]) else .isFalse (by simp [h])
  | .ok _, .error _ => .isFalse (by simp)
  | .error _, .ok _ => .isFalse (by simp)

/-- A module cache that already holds the default variant under id 7. -/
def c7CacheState : ShaderState :=
  { code := "x", moduleCache := [("__default__", 7)], nextModuleId := 8,
    compileLog := [] }

/-- A fresh pipeline cache over one registered shader with source `"x"`. -/
def pcState0 : PipelineCacheState :=
  { cache := [], shaders := [(0, newShader "x")], nextPipelineId := 0,
    pipelineCompileLog := [] }

/-- A plain descriptor: default variant, `"position"` layout, no depth. -/
def pcDesc0 : PipelineDescriptor :=
  { shader := 0, shaderFlags := [], vertexLayout := "position",
    format := "bgra8unorm", depthFormat := none, depthWriteEnabled := none,
    depthCompare := none, cullMode := none, topology := none,
    blendMode := none, pipelineLayout := 0 }

/-- The state after `getOrCreate pcState0 pcDesc0`: pipeline 0 cached under
the built key, the shader's default variant compiled as module 0. -/
def pcState1 : PipelineCacheState :=
  { cache := [(buildKey pcDesc0, 0)],
    shaders := [(0, { code := "x", moduleCache := [("__default__", 0)],
                      nextModuleId := 1, compileLog := ["__default__"] })],
    nextPipelineId := 1, pipelineCompileLog := [buildKey pcDesc0] }

/-- A first mesh: 48 bytes of vertices (4 position vectors), 6 indices. -/
def c1Input : MeshInput :=
  { vertexByteLength := 48, indexData := [0, 1, 2, 0, 2, 3],
    normalByteLength := none, uv0ByteLength := none }

/-- The registry holding exactly the mesh of `c1Input`. -/
def c1State : MeshRegistryState := (registerMesh initMeshRegistry c1Input).2

/-- A mesh with an odd index count (3 indices, 6 bytes). -/
def c5Input : MeshInput :=
  { vertexByteLength := 36, indexData := [1, 2, 3],
    normalByteLength := none, uv0ByteLength := none }

/-- A second mesh to give the second catalog entry nonzero offsets. -/
def c2MeshB : MeshInput :=
  { vertexByteLength := 36, indexData := [0, 1, 2, 0],
    normalByteLength := none, uv0ByteLength := none }

/-- A registry holding the meshes of `c1Input` and `c2MeshB`; the second
mesh has handle 6 and stored index span offset 12, length 8. -/
def c2State : MeshRegistryState :=
  (registerMesh (registerMesh initMeshRegistry c1Input).2 c2MeshB).2

/-- One object drawing the second mesh with material 0. -/
def c2Scene : List RenderObject :=
  [{ meshHandle := 6, materialHandle := 0 }]

/-- A material built from an all-default descriptor. -/
def c8Material : MaterialState :=
  newMaterial { shaderIndex := 0, albedo := none, roughness := none,
                metallic := none, emissive := none, flags := none }

/-- A fresh device counter record. -/
def c8Device : MaterialDevice :=
  { nextId := 0, buffersCreated := 0, bufferWrites := 0,
    bindGroupsCreated := 0 }

/-! ## Supporting lemmas -/

theorem processLines_eq_scanSpec (flags : ShaderVariantFlags)
    (lines : List (List Char)) (stack : List Bool) :
    processLines flags lines stack = scanSpec flags lines stack := by
  induction lines generalizing stack with
  | nil => cases stack <;> rfl
  | cons line rest ih =>
    simp only [processLines, scanSpec, classifyLine]
    by_cases h1 : startsWithChars "#ifdef ".data (trimChars line) = true
    · simp [h1, ih]
    · simp only [Bool.not_eq_true] at h1
      by_cases h2 : startsWithChars "#ifndef ".data (trimChars line) = true
      · simp [h1, h2, ih]
      · simp only [Bool.not_eq_true] at h2
        have e1 : startsWithChars "#ifdef ".data "#else".data = false := by decide
        have e2 : startsWithChars "#ifndef ".data "#else".data = false := by decide
        have e3 : startsWithChars "#ifdef ".data "#endif".data = false := by decide
        have e4 : startsWithChars "#ifndef ".data "#endif".data = false := by decide
        by_cases h3 : trimChars line = "#else".data
        · cases stack <;> simp [h1, h2, h3, e1, e2, ih]
        · by_cases h4 : trimChars line = "#endif".data
          · cases stack <;> simp [h1, h2, h3, h4, e3, e4, ih]
          · by_cases h5 : stack.all (fun v => v) = true
            · simp [h1, h2, h3, h4, h5, ih]
            · simp only [Bool.not_eq_true] at h5
              simp [h1, h2, h3, h4, h5, ih]

theorem cacheLookup_append_mono {c : List (String × Nat)} {k : String}
    {v : Nat} (l : List (String × Nat)) (h : cacheLookup c k = some v) :
    cacheLookup (c ++ l) k = some v := by
  induction c with
  | nil => simp [cacheLookup, List.find?] at h
  | cons kv rest ih =>
    by_cases hk : kv.1 = k
    · simp [cacheLookup, List.find?, hk] at h ⊢; exact h
    · simp only [cacheLookup, List.cons_append, List.find?,
        decide_eq_false hk] at h ⊢
      exact ih h

theorem cacheLookup_append_hit {c : List (String × Nat)} {k : String}
    (m : Nat) (h : cacheLookup c k = none) :
    cacheLookup (c ++ [(k, m)]) k = some m := by
  induction c with
  | nil => simp [cacheLookup, List.find?]
  | cons kv rest ih =>
    by_cases hk : kv.1 = k
    · simp [cacheLookup, List.find?, hk] at h
    · simp only [cacheLookup, List.cons_append, List.find?,
        decide_eq_false hk] at h ⊢
      exact ih h

/-- One `getModule` step either leaves the state unchanged or caches the
requested key, which was previously absent, extending the compile log by
exactly that key. -/
theorem getModule_step (st : ShaderState) (flags : ShaderVariantFlags) :
    (getModule st flags).2 = st
    ∨ (cacheLookup st.moduleCache (getVariantKey flags) = none
        ∧ (getModule st flags).2.moduleCache
            = st.moduleCache ++ [(getVariantKey flags, st.nextModuleId)]
        ∧ (getModule st flags).2.compileLog
            = st.compileLog ++ [getVariantKey flags]) := by
  unfold getModule
  cases hc : cacheLookup st.moduleCache (getVariantKey flags) with
  | some m => left; rfl
  | none =>
    cases hp : preprocess st.code flags with
    | error e => left; rfl
    | ok s => right; exact ⟨rfl, rfl, rfl⟩

theorem getModule_preserves_inv (st : ShaderState)
    (flags : ShaderVariantFlags) (h : ShaderCacheInv st) :
    ShaderCacheInv (getModule st flags).2 := by
  rcases getModule_step st flags with heq | ⟨hnone, hcache, hlog⟩
  · rw [heq]; exact h
  · obtain ⟨hnodup, hmem⟩ := h
    constructor
    · rw [hlog]
      refine List.Nodup.append hnodup (List.nodup_singleton _) ?_
      intro k hk hk'
      have hkey := List.mem_singleton.mp hk'
      have hmemk := hmem k hk
      rw [hkey, hnone] at hmemk
      simp at hmemk
    · intro k hk
      rw [hlog] at hk
      rcases List.mem_append.mp hk with hk | hk
      · rw [hcache]
        have := hmem k hk
        cases hv : cacheLookup st.moduleCache k with
        | none => rw [hv] at this; simp at this
        | some v => rw [cacheLookup_append_mono _ hv]; simp
      · have hkey := List.mem_singleton.mp hk
        subst hkey
        rw [hcache, cacheLookup_append_hit _ hnone]; simp

theorem runGetModules_preserves_inv (calls : List ShaderVariantFlags)
    (st : ShaderState) (h : ShaderCacheInv st) :
    ShaderCacheInv (runGetModules st calls) := by
  induction calls generalizing st with
  | nil => exact h
  | cons flags rest ih =>
    exact ih _ (getModule_preserves_inv st flags h)

/-- A successful `getOrCreate` leaves the returned pipeline cached under the
descriptor's key. -/
theorem getOrCreate_caches (st : PipelineCacheState)
    (desc : PipelineDescriptor) (p : Nat) (st1 : PipelineCacheState)
    (h : getOrCreate st desc = .ok (p, st1)) :
    cacheLookup st1.cache (buildKey desc) = some p
    ∧ st1.pipelineCompileLog.length ≤ st.pipelineCompileLog.length + 1 := by
  unfold getOrCreate at h
  split at h
  · rename_i q hc
    simp only [Except.ok.injEq, Prod.mk.injEq] at h
    obtain ⟨rfl, rfl⟩ := h
    exact ⟨hc, Nat.le_succ _⟩
  · rename_i hc
    split at h
    · simp at h
    · split at h
      · simp at h
      · split at h
        · simp at h
        · rename_i sst hh m sst1 hm
          simp only [Except.ok.injEq, Prod.mk.injEq] at h
          obtain ⟨rfl, rfl⟩ := h
          refine ⟨cacheLookup_append_hit _ hc, ?_⟩
          simp

/-- The function `drawLoop` agrees with the zip-with-previous-key form for every index
order and starting key. -/
theorem drawLoop_eq_spec (scene : List RenderObject) (st : MeshRegistryState)
    (l : List Nat) (cur : Int) :
    drawLoop scene st l cur =
      ((l.zip (cur :: l.map (keyOf scene))).map
        (fun p =>
          (if keyOf scene p.1 ≠ p.2 then
            [RenderCmd.setPipeline (keyOf scene p.1),
             RenderCmd.setMaterialBindGroup (keyOf scene p.1)]
          else [])
          ++ [RenderCmd.setModelBindGroup p.1,
              RenderCmd.drawIndexed
                (getMeshData st (scene.getD p.1 default).meshHandle).indexOffset
                1 0 0 0])).flatten := by
  induction l generalizing cur with
  | nil => rfl
  | cons i rest ih =>
    by_cases hc : (scene.getD i default).materialHandle = cur
    · simp only [drawLoop, keyOf, getMeshDataJS, jsFalsy, ih,
        List.zip_cons_cons, List.map_cons, List.flatten_cons]
      have hc' : (scene[i]?.getD default).materialHandle = cur := by
        simpa [List.getD] using hc
      simp [List.getD, hc']
    · simp only [drawLoop, keyOf, getMeshDataJS, jsFalsy, ih,
        List.zip_cons_cons, List.map_cons, List.flatten_cons]
      have hc' : ¬ (scene[i]?.getD default).materialHandle = cur := by
        simpa [List.getD] using hc
      simp [List.getD, hc']

theorem drawLoop_draw_count (scene : List RenderObject)
    (st : MeshRegistryState) (l : List Nat) (cur : Int) :
    ((drawLoop scene st l cur).filter isDrawCmd).length = l.length := by
  induction l generalizing cur with
  | nil => rfl
  | cons i rest ih =>
    by_cases hc : (scene.getD i default).materialHandle = cur
    · simp [drawLoop, hc, List.filter_append, isDrawCmd, List.filter,
        getMeshDataJS, jsFalsy, ih]
      intro a _ h
      rcases h with rfl | rfl <;> rfl
    · simp [drawLoop, hc, List.filter_append, isDrawCmd, List.filter,
        getMeshDataJS, jsFalsy, ih]
      intro a _ h
      rcases h with rfl | rfl <;> rfl

theorem sortedIndices_perm (scene : List RenderObject) :
    (sortedIndices scene).Perm (List.range scene.length) :=
  List.perm_insertionSort _ _

theorem sortedIndices_sorted (scene : List RenderObject) :
    List.Pairwise (drawBefore scene) (sortedIndices scene) := by
  haveI : IsTotal Nat (drawBefore scene) := ⟨fun a b => by
    unfold drawBefore
    rcases lt_trichotomy (keyOf scene a) (keyOf scene b) with h | h | h
    · exact Or.inl (Or.inl h)
    · rcases Nat.le_total a b with hab | hab
      · exact Or.inl (Or.inr ⟨h, hab⟩)
      · exact Or.inr (Or.inr ⟨h.symm, hab⟩)
    · exact Or.inr (Or.inl h)⟩
  haveI : IsTrans Nat (drawBefore scene) := ⟨fun a b c hab hbc => by
    unfold drawBefore at hab hbc ⊢
    rcases hab with h1 | ⟨h1, h1'⟩
    · rcases hbc with h2 | ⟨h2, _⟩
      · exact Or.inl (lt_trans h1 h2)
      · exact Or.inl (h2 ▸ h1)
    · rcases hbc with h2 | ⟨h2, h2'⟩
      · exact Or.inl (h1 ▸ h2)
      · exact Or.inr ⟨h1.trans h2, le_trans h1' h2'⟩⟩
  exact List.sorted_insertionSort (drawBefore scene) (List.range scene.length)

/-! ## Claim theorems -/

theorem mapGet_mapSet_self {α β : Type} [DecidableEq α]
    (m : List (α × β)) (k : α) (v : β) :
    mapGet (mapSet m k v) k = some v := by
  induction m with
  | nil => simp [mapSet, mapGet, List.find?]
  | cons kv rest ih =>
    by_cases hk : kv.1 = k
    · simp [mapSet, mapGet, List.find?, hk]
    · simp only [mapSet, hk, if_false]
      simpa [mapGet, List.find?, decide_eq_false hk] using ih

/-- C4: two flag maps selecting the same set of true-valued flag names
(regardless of explicitly false entries or key order) produce the same
variant key, and a map with no true flag produces the `"__default__"`
sentinel. -/
theorem getVariantKey_canonical (F1 F2 : ShaderVariantFlags)
    (h1 : (F1.map Prod.fst).Nodup) (h2 : (F2.map Prod.fst).Nodup)
    (hset : (trueFlagNames F1).toFinset = (trueFlagNames F2).toFinset) :
    getVariantKey F1 = getVariantKey F2
    ∧ (∀ F : ShaderVariantFlags, trueFlagNames F = [] →
        getVariantKey F = "__default__") := by
  constructor
  · have n1 : (trueFlagNames F1).Nodup :=
      List.Nodup.sublist (List.Sublist.map Prod.fst (List.filter_sublist F1)) h1
    have n2 : (trueFlagNames F2).Nodup :=
      List.Nodup.sublist (List.Sublist.map Prod.fst (List.filter_sublist F2)) h2
    have hperm : (trueFlagNames F1).Perm (trueFlagNames F2) :=
      List.perm_of_nodup_nodup_toFinset_eq n1 n2 hset
    have hsort : List.insertionSort strLe (trueFlagNames F1)
        = List.insertionSort strLe (trueFlagNames F2) :=
      List.eq_of_perm_of_sorted
        ((List.perm_insertionSort strLe _).trans
          (hperm.trans (List.perm_insertionSort strLe _).symm))
        (List.sorted_insertionSort strLe _)
        (List.sorted_insertionSort strLe _)
    unfold getVariantKey
    rw [hsort]
  · intro F h
    unfold getVariantKey
    rw [h]
    rfl

/-- Witness for C4: `{B: true, A: true, C: false}` and `{A: true, B: true}`
share the key, and the empty flag map keys to the sentinel. -/
theorem getVariantKey_canonical_witness :
    getVariantKey [("B", true), ("A", true), ("C", false)]
      = getVariantKey [("A", true), ("B", true)]
    ∧ getVariantKey [] = "__default__" := by
  have h := getVariantKey_canonical [("B", true), ("A", true), ("C", false)]
    [("A", true), ("B", true)] (by decide) (by decide) (by decide)
  exact ⟨h.1, h.2 [] rfl⟩

/-- C6: `preprocess` is the single-pass boolean-stack scanner: classify
each line as `#ifdef` (push the flag's truth) / `#ifndef` (push its
negation) / `#else` (negate the top, failing on an empty stack) / `#endif`
(pop, failing on an empty stack) / content (emitted iff every stack entry
is true), and fail when the stack is non-empty at end of input — the
machine `scanSpec` states this directly, and `preprocess` equals it on
every source text and flag map. -/
theorem preprocess_stack_machine (flags : ShaderVariantFlags)
    (code : String) :
    preprocess code flags
      = (scanSpec flags (splitLines code.data) []).map
          (fun out => String.mk (joinLinesNL out)) := by
  unfold preprocess
  rw [processLines_eq_scanSpec]

/-- C7: over any call sequence on a fresh `Shader`, each variant key is
compiled at most once (the compile log has no duplicates); a call that hits
the cache returns the cached module and leaves the state untouched; and a
call that fails in the preprocessor leaves the state (in particular the
module cache) unchanged. -/
theorem getModule_compile_once (code : String)
    (calls : List ShaderVariantFlags) (st : ShaderState)
    (flags : ShaderVariantFlags) :
    (runGetModules (newShader code) calls).compileLog.Nodup
    ∧ (∀ e, (getModule st flags).1 = .error e → (getModule st flags).2 = st)
    ∧ (∀ m, cacheLookup st.moduleCache (getVariantKey flags) = some m →
        getModule st flags = (.ok m, st)) := by
  refine ⟨?_, ?_, ?_⟩
  · have h := runGetModules_preserves_inv calls (newShader code)
      ⟨List.nodup_nil, by intro k hk; simp [newShader] at hk⟩
    exact h.1
  · intro e h
    unfold getModule at h ⊢
    cases hc : cacheLookup st.moduleCache (getVariantKey flags) with
    | some m => rw [hc] at h
    | none =>
      cases hp : preprocess st.code flags with
      | error e2 => rfl
      | ok s => rw [hc] at h; simp [hp] at h
  · intro m hm
    unfold getModule
    rw [hm]

/-- Witness for C7: three calls (variant A, default, variant A again)
compile two distinct keys; a failing call on `#else` source leaves the
fresh state; a call on a pre-populated cache returns module 7 unchanged. -/
theorem getModule_compile_once_witness :
    (runGetModules (newShader "x") [[("A", true)], [], [("A", true)]]).compileLog.Nodup
    ∧ (getModule (newShader "#else") []).2 = newShader "#else"
    ∧ getModule c7CacheState [] = (.ok 7, c7CacheState) := by
  refine ⟨(getModule_compile_once "x" [[("A", true)], [], [("A", true)]]
            c7CacheState []).1,
          (getModule_compile_once "x" [] (newShader "#else") []).2.1
            .unmatchedElse (by decide),
          (getModule_compile_once "x" [] c7CacheState []).2.2 7 (by decide)⟩

/-- C3: for field-for-field-equal descriptors, a successful `getOrCreate`
followed by a second call returns the identical pipeline and the identical
state (so the second call is a pure cache hit), and across the two calls
`device.createRenderPipeline` runs at most once. -/
theorem getOrCreate_dedup (d1 d2 : PipelineDescriptor)
    (st st1 : PipelineCacheState) (p1 : Nat)
    (heq : d1 = d2) (h : getOrCreate st d1 = .ok (p1, st1)) :
    getOrCreate st1 d2 = .ok (p1, st1)
    ∧ st1.pipelineCompileLog.length ≤ st.pipelineCompileLog.length + 1 := by
  subst heq
  obtain ⟨hcache, hlen⟩ := getOrCreate_caches st d1 p1 st1 h
  refine ⟨?_, hlen⟩
  unfold getOrCreate
  rw [hcache]

/-- Witness for C3: on a fresh cache the descriptor compiles pipeline 0;
the repeated call returns the same pipeline and state, with one logged
compilation in total. -/
theorem getOrCreate_dedup_witness :
    getOrCreate pcState0 pcDesc0 = .ok (0, pcState1)
    ∧ getOrCreate pcState1 pcDesc0 = .ok (0, pcState1)
    ∧ pcState1.pipelineCompileLog.length
        ≤ pcState0.pipelineCompileLog.length + 1 := by
  have h1 : getOrCreate pcState0 pcDesc0 = .ok (0, pcState1) := by decide
  have h2 := getOrCreate_dedup pcDesc0 pcDesc0 pcState0 pcState1 0 rfl h1
  exact ⟨h1, h2.1, h2.2⟩

set_option maxRecDepth 100000 in
/-- C1 (code-bug evaluation): registering a first mesh with 48 bytes of
vertex data and 12 bytes of index data returns handle 0, but
`getMeshData(0)` reports `vertexSize = 0` and `indexSize = 0` — not 48 and
12 — and `vertexOffset = 3`, which is the attribute mask: `registerMesh`
stores the mask twice (at the handle, and again as the first entry word one
position later), so every span field `getMeshData` reads is shifted by one
word. The normal/uv fields are `null` exactly as claimed. -/
theorem registerMesh_roundtrip_mismatch :
    (registerMesh initMeshRegistry c1Input).1 = 0
    ∧ getMeshData c1State 0 =
        { vertexOffset := .num 3, vertexSize := .num 0,
          indexOffset := .num 48, indexSize := .num 0,
          normalOffset := none, normalSize := none,
          uv0Offset := none, uv0Size := none }
    ∧ JsWord.num 0 ≠ JsWord.num 48
    ∧ JsWord.num 0 ≠ JsWord.num 12 := by decide

set_option maxRecDepth 100000 in
/-- C5 (code-bug evaluation): `MeshRegistry.registerMesh` uploads a
3-element index array unchanged — a 3-element, 6-byte write, not 4-byte
aligned — while the earlier `Renderer.appendIndexData` pads the same array
to `[1, 2, 3, 0]` (4 elements, 8 bytes, trailing zero) and uploads
even-length arrays unpadded. -/
theorem registerMesh_missing_index_padding :
    (registerMesh initMeshRegistry c5Input).2.indexWrites = [(0, [1, 2, 3])]
    ∧ (appendIndexData 0 [1, 2, 3]).written = [1, 2, 3, 0]
    ∧ (appendIndexData 0 [1, 2, 3]).byteLength = 8
    ∧ (appendIndexData 0 [1, 2, 3, 4]).written = [1, 2, 3, 4] := by decide

/-- C10: `getMeshData` is total over all integer handles — it always
returns an object (never throws, never returns null or undefined), so the
`!mesh` falsiness check in the draw loop never fires and every scene object
issues exactly one indexed draw, whatever its mesh handle. -/
theorem getMeshData_total_truthy (st : MeshRegistryState) (h : Int)
    (scene : List RenderObject) :
    jsFalsy (getMeshDataJS st h) = false
    ∧ ((executeDrawCommands scene st).filter isDrawCmd).length
        = scene.length := by
  refine ⟨rfl, ?_⟩
  unfold executeDrawCommands
  rw [drawLoop_draw_count]
  exact ((sortedIndices_perm scene).length_eq).trans (List.length_range _)

set_option maxRecDepth 100000 in
/-- C2 counterexample: the object's mesh entry (handle 6) stores index byte
offset 12 (word 10 of the registry) and index byte length 8 (word 11,
i.e. 4 sixteen-bit indices), yet the loop issues
`drawIndexed(36, 1, 0, 0, 0)`: the first-index argument is the constant 0,
not the entry's index offset (12 bytes / 6 elements), and the index-count
argument 36 is the decoded `indexOffset` field, not the entry's index count
(8 bytes / 4 elements) — so the draw's index count and first-index offset
do not come from the object's mesh entry as the claim states. -/
theorem execute_draw_args_counterexample :
    executeDrawCommands c2Scene c2State =
      [.setPipeline 0, .setMaterialBindGroup 0, .setModelBindGroup 0,
       .drawIndexed (.num 36) 1 0 0 0]
    ∧ u32get c2State.registryWords 10 = .num 12
    ∧ u32get c2State.registryWords 11 = .num 8
    ∧ (0 : Nat) ≠ 12 ∧ (0 : Nat) ≠ 6
    ∧ (36 : Nat) ≠ 8 ∧ (36 : Nat) ≠ 4 := by decide

/-- C2 (amended): the draw order is the stable sort of the object indices
by `materialHandle` (a permutation of the indices, sorted with original
order on ties); the emitted command stream rebinds the pipeline and
material bind group exactly at positions whose material differs from the
previous position's (sentinel −1 before the first), rebinds the per-object
bind group for every object, and issues exactly one indexed draw per
object — whose index-count argument is the `indexOffset` field of
`getMeshData(meshHandle)` and whose first-index argument is the constant
0. -/
theorem execute_draw_loop_structure (scene : List RenderObject)
    (st : MeshRegistryState) :
    executeDrawCommands scene st = specCommands scene st
    ∧ (sortedIndices scene).Perm (List.range scene.length)
    ∧ List.Pairwise (drawBefore scene) (sortedIndices scene) :=
  ⟨drawLoop_eq_spec scene st (sortedIndices scene) (-1),
   sortedIndices_perm scene, sortedIndices_sorted scene⟩

/-- C8: every property setter marks the material dirty and drops the cached
bind group; every material operation preserves the invariant that a cached
bind group exists only when the material is clean; after a mutation the
next `getBindGroup` performs exactly one uniform write and one bind-group
creation; and a repeated `getBindGroup` with no intervening mutation
returns the identical bind group, material state, and device state. -/
theorem material_dirty_bindgroup (m : MaterialState) (dev : MaterialDevice)
    (s : SetterOp) (op : MaterialOp) (hinv : MaterialInv m) :
    ((applySetter s m).dirty = true ∧ (applySetter s m).bindGroup = none)
    ∧ MaterialInv (applyMaterialOp op m dev).1
    ∧ ((getBindGroup (applySetter s m) dev).2.2.bufferWrites
          = dev.bufferWrites + 1
        ∧ (getBindGroup (applySetter s m) dev).2.2.bindGroupsCreated
          = dev.bindGroupsCreated + 1)
    ∧ getBindGroup (getBindGroup m dev).2.1 (getBindGroup m dev).2.2
        = getBindGroup m dev := by
  refine ⟨?_, ?_, ?_, ?_⟩
  · cases s <;> simp [applySetter, setAlbedo, setRoughness, setMetallic,
      setEmissive, invalidateBindGroup]
  · cases op with
    | set s' =>
      cases s' <;> simp [MaterialInv, applyMaterialOp, applySetter,
        setAlbedo, setRoughness, setMetallic, setEmissive,
        invalidateBindGroup]
    | upload =>
      cases hb : m.uniformBuffer <;> cases hd : m.dirty <;>
        simp [MaterialInv, applyMaterialOp, uploadUniforms, hb, hd]
    | getGroup =>
      cases hb : m.uniformBuffer <;> cases hd : m.dirty <;>
          cases hg : m.bindGroup <;>
        simp [MaterialInv, applyMaterialOp, getBindGroup, uploadUniforms,
          hb, hd, hg]
    | invalidate =>
      simp [MaterialInv, applyMaterialOp, invalidateBindGroup]
  · cases s <;> cases hb : m.uniformBuffer <;>
      simp [applySetter, setAlbedo, setRoughness, setMetallic, setEmissive,
        invalidateBindGroup, getBindGroup, uploadUniforms, hb]
  · cases hb : m.uniformBuffer <;> cases hd : m.dirty <;>
        cases hg : m.bindGroup <;>
      simp [getBindGroup, uploadUniforms, hb, hd, hg]

/-- Witness for C8: on a freshly constructed material and device, a
`setRoughness` mutation dirties and invalidates; `uploadUniforms` preserves
the invariant; the `getBindGroup` after the mutation performs one write and
one creation; and the repeated `getBindGroup` is the identity. -/
theorem material_dirty_bindgroup_witness :
    ((applySetter (SetterOp.opRoughness 1) c8Material).dirty = true
      ∧ (applySetter (SetterOp.opRoughness 1) c8Material).bindGroup = none)
    ∧ MaterialInv (applyMaterialOp MaterialOp.upload c8Material c8Device).1
    ∧ ((getBindGroup (applySetter (SetterOp.opRoughness 1) c8Material)
          c8Device).2.2.bufferWrites = c8Device.bufferWrites + 1
        ∧ (getBindGroup (applySetter (SetterOp.opRoughness 1) c8Material)
            c8Device).2.2.bindGroupsCreated = c8Device.bindGroupsCreated + 1)
    ∧ getBindGroup (getBindGroup c8Material c8Device).2.1
          (getBindGroup c8Material c8Device).2.2
        = getBindGroup c8Material c8Device :=
  material_dirty_bindgroup c8Material c8Device (SetterOp.opRoughness 1)
    MaterialOp.upload (by decide)

/-- C9 counterexample: declaring the texture name `"t"` twice in the same
builder does not fail — `declareTexture` is a total operation — and the
second declaration replaces the first: the stored parameters afterwards are
the second call's (2), not the original (1), so the existing declaration is
not left intact. -/
theorem declareTexture_overwrite_counterexample :
    mapGet (declareTexture (declareTexture (builderPass newBuilder "p")
        "t" 1) "t" 2).textures "t"
      = some { param := 2, usage := [(some "p", ["declare"])] }
    ∧ (2 : Nat) ≠ 1 := by decide

/-- C9 (amended): `declareTexture` always succeeds and stores the new
entry under the name (overwriting any previous declaration), while reading
or writing an undeclared texture name fails with the not-declared error and
reading or writing a declared one succeeds. -/
theorem builder_texture_declare_errors (b : BuilderState) (name : String)
    (params : Nat) :
    mapGet (declareTexture b name params).textures name
      = some { param := params, usage := [(b.passName, ["declare"])] }
    ∧ (mapGet b.textures name = none →
        readTexture b name
            = .error ("Texture " ++ name ++ " is not declared.")
          ∧ writeTexture b name
            = .error ("Texture " ++ name ++ " is not declared."))
    ∧ (∀ t, mapGet b.textures name = some t →
        (∃ b1, readTexture b name = .ok b1)
          ∧ (∃ b2, writeTexture b name = .ok b2)) := by
  refine ⟨mapGet_mapSet_self _ _ _, ?_, ?_⟩
  · intro h
    constructor
    · unfold readTexture
      rw [h]
    · unfold writeTexture
      rw [h]
  · intro t h
    constructor
    · unfold readTexture
      rw [h]
      exact ⟨_, rfl⟩
    · unfold writeTexture
      rw [h]
      exact ⟨_, rfl⟩

/-- Witness for the amended C9: a fresh declaration is retrievable; reading
an undeclared name yields the not-declared error; reading a declared name
succeeds. -/
theorem builder_texture_declare_errors_witness :
    mapGet (declareTexture newBuilder "n" 5).textures "n"
      = some { param := 5, usage := [(none, ["declare"])] }
    ∧ readTexture newBuilder "t"
        = .error ("Texture " ++ "t" ++ " is not declared.")
    ∧ (∃ b1, readTexture (declareTexture newBuilder "n" 5) "n" = .ok b1) :=
  ⟨(builder_texture_declare_errors newBuilder "n" 5).1,
   ((builder_texture_declare_errors newBuilder "t" 0).2.1 (by decide)).1,
   ((builder_texture_declare_errors (declareTexture newBuilder "n" 5) "n" 0).2.2
      { param := 5, usage := [(none, ["declare"])] } (by decide)).1⟩
